import Mathlib

/-!
# Endless-Runner template: verification of the gameplay-loop specification

Shallow embedding of the gameplay loop of the endless-runner repository.
The repository contains two variants of the loop:

* a monolithic variant (`components/game.tsx`): `gameLoop`, `startGame`,
  inline collision / cleanup / jump / difficulty logic;
* a modular variant (the `useGameLogic` hook: `moveWorld`,
  `updatePlayerMovement`, `checkCollisions`, `cleanupObstacles`,
  `updateDifficulty`, `startGame`), with constants from `PHYSICS_CONFIG`
  (`game-engine.tsx`) and `GAME_RULES`.

JavaScript numbers are modelled by exact rationals (`ℚ`); all the constants
involved (0.2, 0.5, 0.0001, 0.3, 1.5, ...) are exactly representable and no
claim in scope depends on binary floating-point rounding.  Scores and
counters are integers (`ℤ`).  The per-frame random draws (obstacle spawn
chance, spawn lane) are passed as explicit parameters.  The obstacle
scale-in animation (`spawnTime` / `Date.now()` easing) is render-only
wall-clock state and mutates no gameplay quantity, so it is not carried.
-/

namespace Runner

/-! ## Constants (`PHYSICS_CONFIG` in `game-engine.tsx`, `GAME_RULES`,
and the literals of the monolithic `game.tsx`, which coincide) -/

def baseSpeed : ℚ := 1/5

def maxSpeed : ℚ := 1/2

def speedIncrease : ℚ := 1/10000

def jumpHeight : ℚ := 4

def jumpSpeed : ℚ := 3/10

def fallSpeed : ℚ := 1/5

def laneChangeSpeed : ℚ := 1/10

def collisionDistance : ℚ := 3/2

def jumpSafeHeight : ℚ := 2

def laneSpacing : ℚ := 2

def pointsPerObstacle : ℤ := 10

def perfectRunBonus : ℤ := 50

def rearThreshold : ℚ := -20

def wrapSpan : ℚ := 200

def spawnZ : ℚ := 100

/-! ## Data model -/

/-- An obstacle: lane x-coordinate and longitudinal position z
(the mesh y-coordinate is the constant 0.5 and never read by game logic). -/
structure Obstacle where
  x : ℚ
  z : ℚ
deriving DecidableEq

/-- The state read and written by the monolithic `gameLoop` / `startGame` in
`game.tsx`: ground-segment z positions, obstacles, the player mesh position,
the lane / jump input state, and the session refs. -/
structure GameState where
  ground : List ℚ
  obstacles : List Obstacle
  playerX : ℚ
  playerY : ℚ
  playerZ : ℚ
  playerLane : ℤ
  isJumping : Bool
  speed : ℚ
  score : ℤ
  isPlaying : Bool
  isGameOver : Bool
deriving DecidableEq

/-- The session refs threaded through the monolithic obstacle `forEach`. -/
structure PassState where
  score : ℤ
  isPlaying : Bool
  isGameOver : Bool
deriving DecidableEq

/-- Score state of the modular logic module (`scoreRef`, `perfectRunRef`). -/
structure ScoreState where
  score : ℤ
  perfectRun : ℤ
deriving DecidableEq

/-- State read and written by the modular `useGameLogic().gameLoop`. -/
structure ModState where
  ground : List ℚ
  obstacles : List Obstacle
  playerX : ℚ
  playerY : ℚ
  playerZ : ℚ
  playerLane : ℤ
  isJumping : Bool
  speed : ℚ
  score : ℤ
  perfectRun : ℤ
  isPlaying : Bool
  isGameOver : Bool
deriving DecidableEq

/-! ## JavaScript `Array.prototype.forEach` with `splice(index, 1)`

Both loop variants iterate over the obstacle array with `forEach` and remove
elements with `splice(index, 1)` inside the callback.  Per the JavaScript
semantics, the iteration count is fixed at the array's initial length, the
index advances by one each iteration, out-of-range indices are skipped, and
a `splice` shifts the remaining elements left — so the element following a
removed one is not visited in that pass.  `step st a` returns the new
threaded state together with `some a'` (element kept, possibly mutated in
place) or `none` (element spliced out). -/
def forEachSplice {σ α : Type} (step : σ → α → σ × Option α) :
    Nat → Nat → List α → σ → List α × σ
  | 0, _, arr, s => (arr, s)
  | fuel + 1, k, arr, s =>
    match arr[k]? with
    | none => forEachSplice step fuel (k + 1) arr s
    | some a =>
      match step s a with
      | (s', some a') => forEachSplice step fuel (k + 1) (arr.set k a') s'
      | (s', none) => forEachSplice step fuel (k + 1) (arr.eraseIdx k) s'

/-- Structural restatement of `forEachSplice` used for proofs: process the
list front to back; after a removal the immediately following element is
carried over unprocessed. -/
def runSplice {σ α : Type} (step : σ → α → σ × Option α) :
    List α → σ → List α × σ
  | [], s => ([], s)
  | a :: rest, s =>
    match step s a with
    | (s', some a') =>
      let p := runSplice step rest s'
      (a' :: p.1, p.2)
    | (s', none) =>
      match rest with
      | [] => ([], s')
      | w :: rest2 =>
        let p := runSplice step rest2 s'
        (w :: p.1, p.2)

/-! ## Shared per-frame pieces -/

/-- The ground-recycling test of the per-frame ground `forEach`:
a (post-scroll) position below the rear threshold gets the wrap span added. -/
def wrapGround (z : ℚ) : ℚ := if z < rearThreshold then z + wrapSpan else z

/-- One frame of a single ground segment: `ground.position.z -= speed`, then
recycle when below the rear threshold. -/
def groundStep (speed z : ℚ) : ℚ := wrapGround (z - speed)

/-- The collision test shared verbatim by both variants:
`|player.x - obstacle.x| < 1.5 && |player.z - obstacle.z| < 1.5 &&
player.y < 2`. -/
def collides (px pz py ox oz : ℚ) : Bool :=
  decide (|px - ox| < collisionDistance) &&
    decide (|pz - oz| < collisionDistance) && decide (py < jumpSafeHeight)

/-- `Math.min(speed + speedIncrease, maxSpeed)` — `updateDifficulty` in the
modular variant and the inline speed update of the monolithic variant. -/
def updateDifficulty (speed : ℚ) : ℚ := min (speed + speedIncrease) maxSpeed

/-! ## Monolithic variant (`game.tsx`) -/

/-- Body of the monolithic obstacle `forEach` for one obstacle: scroll by
`speed`; on collision set game over and return from the callback (the
obstacle is kept and its cleanup test is skipped); otherwise remove it and
score 10 points once strictly past the rear threshold. -/
def monoObstacleStep (speed px py pz : ℚ) (st : PassState) (ob : Obstacle) :
    PassState × Option Obstacle :=
  let ob' : Obstacle := { ob with z := ob.z - speed }
  if collides px pz py ob'.x ob'.z then
    ({ st with isPlaying := false, isGameOver := true }, some ob')
  else if ob'.z < rearThreshold then
    ({ st with score := st.score + pointsPerObstacle }, none)
  else
    (st, some ob')

/-- The whole monolithic obstacle `forEach` (move, collide, cleanup with
`splice`), with the player position fixed for the duration of the pass. -/
def monoObstaclePass (speed px py pz : ℚ) (obstacles : List Obstacle)
    (st : PassState) : List Obstacle × PassState :=
  forEachSplice (monoObstacleStep speed px py pz) obstacles.length 0
    obstacles st

/-- The monolithic jump / fall update: while jumping,
`y = max(0, y + 0.3)` and jumping is cleared once `y >= 4`; otherwise
`y = max(0, y - 0.2)`. -/
def jumpStep (y : ℚ) (isJumping : Bool) : ℚ × Bool :=
  if isJumping then
    (max 0 (y + jumpSpeed),
      if jumpHeight ≤ max 0 (y + jumpSpeed) then false else isJumping)
  else
    (max 0 (y - fallSpeed), isJumping)

/-- One tick of the monolithic `gameLoop`: guard on `isPlaying`; ground
scroll and recycling; the obstacle `forEach` (scroll, collision test against
the current player position, cleanup and scoring); random spawn at z = 100
(the draw and the random lane are the `spawnDraw` / `spawnLaneX`
parameters); lane smoothing; jump / fall; difficulty ramp.  Everything after
the obstacle pass runs unconditionally: the collision branch `return`s only
from the `forEach` callback, not from `gameLoop`. -/
def gameLoopFrame (spawnDraw : Bool) (spawnLaneX : ℚ) (st : GameState) :
    GameState :=
  if !st.isPlaying then st
  else
    let ground' := st.ground.map (groundStep st.speed)
    let pass := monoObstaclePass st.speed st.playerX st.playerY st.playerZ
      st.obstacles
      { score := st.score, isPlaying := st.isPlaying,
        isGameOver := st.isGameOver }
    let obstacles' :=
      if spawnDraw then pass.1 ++ [{ x := spawnLaneX, z := spawnZ }]
      else pass.1
    let targetX := (st.playerLane : ℚ) * laneSpacing
    let jump := jumpStep st.playerY st.isJumping
    { st with
      ground := ground'
      obstacles := obstacles'
      playerX := st.playerX + (targetX - st.playerX) * laneChangeSpeed
      playerY := jump.1
      isJumping := jump.2
      speed := updateDifficulty st.speed
      score := pass.2.score
      isPlaying := pass.2.isPlaying
      isGameOver := pass.2.isGameOver }

/-- The monolithic `startGame`: reset speed, score and session flags, lane
to 0, jumping off, clear all obstacles, put the player mesh back at the
origin.  The ground segments are not touched. -/
def startGame (st : GameState) : GameState :=
  { st with
    speed := baseSpeed
    score := 0
    isPlaying := true
    isGameOver := false
    playerLane := 0
    isJumping := false
    obstacles := []
    playerX := 0
    playerY := 0
    playerZ := 0 }

/-! ## Modular variant (`useGameLogic`) -/

/-- `moveWorld`: scroll every ground segment (with recycling) and every
obstacle by `speed`. -/
def moveWorld (speed : ℚ) (ground : List ℚ) (obstacles : List Obstacle) :
    List ℚ × List Obstacle :=
  (ground.map (groundStep speed),
    obstacles.map fun ob => { ob with z := ob.z - speed })

/-- `updatePlayerMovement`: lane smoothing toward `lane * 2` and the
jump / fall y-update.  Note: this variant never clears `isJumping`. -/
def updatePlayerMovement (lane : ℤ) (px py : ℚ) (isJumping : Bool) :
    ℚ × ℚ :=
  (px + ((lane : ℚ) * laneSpacing - px) * laneChangeSpeed,
    if isJumping then max 0 (py + jumpSpeed) else max 0 (py - fallSpeed))

/-- `checkCollisions`: `obstacles.some(...)` of the shared collision test. -/
def checkCollisions (px pz py : ℚ) (obstacles : List Obstacle) : Bool :=
  obstacles.any fun ob => collides px pz py ob.x ob.z

/-- Body of `cleanupObstacles` for one obstacle: once strictly past the rear
threshold it is spliced out, the score gains `pointsPerObstacle`, the
perfect-run counter gains 1, and every removal whose new counter value is a
multiple of 10 additionally gains `perfectRunBonus`. -/
def cleanupStep (st : ScoreState) (ob : Obstacle) :
    ScoreState × Option Obstacle :=
  if ob.z < rearThreshold then
    let score1 := st.score + pointsPerObstacle
    let pr1 := st.perfectRun + 1
    ({ score := if pr1 % 10 = 0 then score1 + perfectRunBonus else score1,
       perfectRun := pr1 }, none)
  else
    (st, some ob)

/-- `cleanupObstacles`: the cleanup `forEach` with `splice`. -/
def cleanupObstacles (obstacles : List Obstacle) (st : ScoreState) :
    List Obstacle × ScoreState :=
  forEachSplice cleanupStep obstacles.length 0 obstacles st

/-- One tick of the modular `useGameLogic().gameLoop`: guard; `moveWorld`;
`updatePlayerMovement`; `checkCollisions` — on hit stop playing, signal game
over and return (cleanup and difficulty are skipped); otherwise
`cleanupObstacles` then `updateDifficulty`. -/
def modGameLoopFrame (st : ModState) : ModState :=
  if !st.isPlaying then st
  else
    let world := moveWorld st.speed st.ground st.obstacles
    let p := updatePlayerMovement st.playerLane st.playerX st.playerY
      st.isJumping
    if checkCollisions p.1 st.playerZ p.2 world.2 then
      { st with
        ground := world.1
        obstacles := world.2
        playerX := p.1
        playerY := p.2
        isPlaying := false
        isGameOver := true }
    else
      let cl := cleanupObstacles world.2
        { score := st.score, perfectRun := st.perfectRun }
      { st with
        ground := world.1
        obstacles := cl.1
        playerX := p.1
        playerY := p.2
        score := cl.2.score
        perfectRun := cl.2.perfectRun
        speed := updateDifficulty st.speed }

/-- The modular `startGame`: resets speed, score, the perfect-run counter
and the playing flag (player / obstacle reset is left to the caller). -/
def modStartGame (st : ModState) : ModState :=
  { st with
    speed := baseSpeed
    score := 0
    perfectRun := 0
    isPlaying := true }

/-- Per-frame fate of one non-colliding obstacle at constant speed — the
composition of the per-obstacle scroll with the removal test: scrolled by
`speed`, then removed with `pointsPerObstacle` scored once its position is
strictly below the rear threshold (the monolithic `forEach` body for an
obstacle that never meets the player). -/
def obstacleFrame (speed : ℚ) : Option ℚ × ℤ → Option ℚ × ℤ
  | (some z, score) =>
    if z - speed < rearThreshold then (none, score + pointsPerObstacle)
    else (some (z - speed), score)
  | (none, score) => (none, score)

/-- The effect of one obstacle removal on the modular score state — the
removal branch of `cleanupStep` written as a function of the state. -/
def removalScore (st : ScoreState) : ScoreState :=
  { score :=
      if (st.perfectRun + 1) % 10 = 0 then
        st.score + pointsPerObstacle + perfectRunBonus
      else st.score + pointsPerObstacle
    perfectRun := st.perfectRun + 1 }

/-- A playing monolithic state with the player at x = 1 (still gliding to
lane 0), one obstacle about to collide and a second obstacle about to pass
the rear threshold. -/
def stC2 : GameState :=
  { ground := [0]
    obstacles := [⟨0, 1/10⟩, ⟨0, -199/10⟩]
    playerX := 1
    playerY := 0
    playerZ := 0
    playerLane := 0
    isJumping := false
    speed := baseSpeed
    score := 0
    isPlaying := true
    isGameOver := false }

/-- A playing modular state: the player is mid-jump at y = 1.8 (below the
safe height) with an obstacle entering collision range this frame. -/
def stC3 : ModState :=
  { ground := []
    obstacles := [⟨0, 3/10⟩]
    playerX := 0
    playerY := 9/5
    playerZ := 0
    playerLane := 0
    isJumping := true
    speed := baseSpeed
    score := 0
    perfectRun := 0
    isPlaying := true
    isGameOver := false }

/-! ## Bridging the indexed `forEach`/`splice` loop to its structural form -/

theorem forEachSplice_out {σ α : Type} (step : σ → α → σ × Option α) :
    ∀ (fuel k : Nat) (arr : List α) (s : σ), arr.length ≤ k →
      forEachSplice step fuel k arr s = (arr, s) := by
  intro fuel
  induction fuel with
  | zero => intro k arr s _; rfl
  | succ n ih =>
    intro k arr s h
    have hk : arr[k]? = none := List.getElem?_eq_none h
    simp only [forEachSplice, hk]
    exact ih (k + 1) arr s (le_trans h (Nat.le_succ k))

theorem getElem?_append_cons {α : Type} :
    ∀ (done : List α) (a : α) (rest : List α),
      (done ++ a :: rest)[done.length]? = some a := by
  intro done a rest
  induction done with
  | nil => simp
  | cons d ds ih => simpa using ih

theorem set_append_cons {α : Type} :
    ∀ (done : List α) (a a' : α) (rest : List α),
      (done ++ a :: rest).set done.length a' = done ++ a' :: rest := by
  intro done a a' rest
  induction done with
  | nil => rfl
  | cons d ds ih => simp [ih]

theorem eraseIdx_append_cons {α : Type} :
    ∀ (done : List α) (a : α) (rest : List α),
      (done ++ a :: rest).eraseIdx done.length = done ++ rest := by
  intro done a rest
  induction done with
  | nil => rfl
  | cons d ds ih => simpa using ih

theorem forEachSplice_eq_runSplice {σ α : Type} (step : σ → α → σ × Option α) :
    ∀ (fuel : Nat) (rest done : List α) (s : σ), rest.length ≤ fuel →
      forEachSplice step fuel done.length (done ++ rest) s =
        (done ++ (runSplice step rest s).1, (runSplice step rest s).2) := by
  intro fuel
  induction fuel with
  | zero =>
    intro rest done s h
    have hrest : rest = [] := List.eq_nil_of_length_eq_zero (Nat.le_zero.mp h)
    subst hrest
    simp [forEachSplice, runSplice]
  | succ n ih =>
    intro rest done s h
    cases rest with
    | nil =>
      rw [forEachSplice_out step _ _ _ _ (by simp)]
      simp [runSplice]
    | cons a rest' =>
      simp only [forEachSplice, getElem?_append_cons]
      cases hstep : step s a with
      | mk s' r =>
        cases r with
        | some a' =>
          simp only [runSplice, hstep]
          rw [set_append_cons]
          have h1 : done.length + 1 = (done ++ [a']).length := by simp
          have h2 : done ++ a' :: rest' = (done ++ [a']) ++ rest' := by simp
          rw [h1, h2, ih rest' (done ++ [a']) s'
            (by simpa using Nat.succ_le_succ_iff.mp h)]
          simp
        | none =>
          cases rest' with
          | nil =>
            simp only [runSplice, hstep]
            rw [eraseIdx_append_cons,
              forEachSplice_out step _ _ _ _ (by simp)]
          | cons w rest2 =>
            simp only [runSplice, hstep]
            rw [eraseIdx_append_cons]
            have h1 : done.length + 1 = (done ++ [w]).length := by simp
            have h2 : done ++ w :: rest2 = (done ++ [w]) ++ rest2 := by simp
            rw [h1, h2, ih rest2 (done ++ [w]) s'
              (by
                have := Nat.succ_le_succ_iff.mp h
                simpa using le_trans (Nat.le_succ _) this)]
            simp

theorem monoObstaclePass_eq_run (speed px py pz : ℚ)
    (obstacles : List Obstacle) (st : PassState) :
    monoObstaclePass speed px py pz obstacles st =
      runSplice (monoObstacleStep speed px py pz) obstacles st := by
  have h := forEachSplice_eq_runSplice (monoObstacleStep speed px py pz)
    obstacles.length obstacles [] st le_rfl
  simpa [monoObstaclePass] using h

theorem cleanupObstacles_eq_run (obstacles : List Obstacle)
    (st : ScoreState) :
    cleanupObstacles obstacles st = runSplice cleanupStep obstacles st := by
  have h := forEachSplice_eq_runSplice cleanupStep
    obstacles.length obstacles [] st le_rfl
  simpa [cleanupObstacles] using h

/-! ## C1: the collision predicate -/

/-- C1: a collision is declared for an active obstacle exactly when
`|player.x - obstacle.x| < 1.5`, `|player.z - obstacle.z| < 1.5` and the
player's vertical position is `< 2` hold simultaneously; the player at the
origin collides with an obstacle at `(0, 0)` and not with one at `(3, 0)`. -/
theorem collision_rule_spec :
    (∀ (px pz py : ℚ) (obs : List Obstacle),
        checkCollisions px pz py obs = true ↔
          ∃ ob ∈ obs, |px - ob.x| < collisionDistance ∧
            |pz - ob.z| < collisionDistance ∧ py < jumpSafeHeight) ∧
      checkCollisions 0 0 0 [⟨0, 0⟩] = true ∧
      checkCollisions 0 0 0 [⟨3, 0⟩] = false := by
  refine ⟨?_, ?_, ?_⟩
  · intro px pz py obs
    simp [checkCollisions, collides, List.any_eq_true, Bool.and_eq_true,
      decide_eq_true_eq, and_assoc]
  · norm_num [checkCollisions, collides, abs_lt, collisionDistance,
      jumpSafeHeight]
  · norm_num [checkCollisions, collides, abs_lt, collisionDistance,
      jumpSafeHeight]

/-- C1 witness: the pointwise characterisation applied to a concrete
obstacle list. -/
theorem collision_rule_spec_witness :
    checkCollisions 0 0 0 [⟨0, 0⟩] = true ∧
      ∃ ob ∈ ([⟨0, 0⟩] : List Obstacle), |(0 : ℚ) - ob.x| < collisionDistance ∧
        |(0 : ℚ) - ob.z| < collisionDistance ∧ (0 : ℚ) < jumpSafeHeight := by
  refine ⟨collision_rule_spec.2.1, ?_⟩
  exact (collision_rule_spec.1 0 0 0 [⟨0, 0⟩]).mp collision_rule_spec.2.1

/-! ## C4: jump apex -/

theorem jumpIter_ascending :
    ∀ k : ℕ, k ≤ 13 →
      (fun p : ℚ × Bool => jumpStep p.1 p.2)^[k] (0, true) =
        (jumpSpeed * k, true) := by
  intro k
  induction k with
  | zero => intro _; simp
  | succ n ih =>
    intro h
    rw [Function.iterate_succ_apply', ih (le_trans (Nat.le_succ n) h)]
    have hn : (0 : ℚ) ≤ (n : ℚ) := Nat.cast_nonneg n
    have hcast : (n : ℚ) + 1 ≤ 13 := by
      have h13 : ((n + 1 : ℕ) : ℚ) ≤ ((13 : ℕ) : ℚ) := by exact_mod_cast h
      push_cast at h13
      linarith
    have hy : (0 : ℚ) ≤ jumpSpeed * n + jumpSpeed := by
      simp only [jumpSpeed]
      linarith
    have hstep : jumpStep (jumpSpeed * n) true =
        (jumpSpeed * n + jumpSpeed,
          if jumpHeight ≤ jumpSpeed * n + jumpSpeed then false else true) := by
      unfold jumpStep
      rw [if_pos rfl, max_eq_right hy]
    rw [hstep, if_neg (by simp only [jumpHeight, jumpSpeed]; intro hc; linarith)]
    rw [Prod.mk.injEq]
    refine ⟨?_, rfl⟩
    push_cast
    ring

/-- C4: starting grounded with the jump flag set, each frame adds
`jumpSpeed = 0.3`, the flag survives frames 0..13 and clears at frame
`⌈4 / 0.3⌉ = 14`, where the vertical offset is `4.2 ≥ jumpHeight`. -/
theorem jump_apex_frames :
    ⌈jumpHeight / jumpSpeed⌉ = 14 ∧
      (∀ k < 14,
        (((fun p : ℚ × Bool => jumpStep p.1 p.2)^[k] (0, true)).2 = true)) ∧
      (fun p : ℚ × Bool => jumpStep p.1 p.2)^[14] (0, true) = (21/5, false) ∧
      jumpHeight ≤ (21/5 : ℚ) := by
  refine ⟨?_, ?_, ?_, ?_⟩
  · rw [Int.ceil_eq_iff]
    norm_num [jumpHeight, jumpSpeed]
  · intro k hk
    rw [jumpIter_ascending k (by omega)]
  · rw [show (14 : ℕ) = 13 + 1 from rfl, Function.iterate_succ_apply',
      jumpIter_ascending 13 (by norm_num)]
    have hy : (0 : ℚ) ≤ jumpSpeed * ((13 : ℕ) : ℚ) + jumpSpeed := by
      norm_num [jumpSpeed]
    have hstep : jumpStep (jumpSpeed * ((13 : ℕ) : ℚ)) true =
        (jumpSpeed * ((13 : ℕ) : ℚ) + jumpSpeed,
          if jumpHeight ≤ jumpSpeed * ((13 : ℕ) : ℚ) + jumpSpeed then false
          else true) := by
      unfold jumpStep
      rw [if_pos rfl, max_eq_right hy]
    rw [hstep, if_pos (by norm_num [jumpHeight, jumpSpeed])]
    norm_num [jumpSpeed]
  · norm_num [jumpHeight]

/-- C4 witness: the still-jumping conjunct applied at frame 5. -/
theorem jump_apex_frames_witness :
    ((fun p : ℚ × Bool => jumpStep p.1 p.2)^[5] (0, true)).2 = true :=
  jump_apex_frames.2.1 5 (by norm_num)

/-! ## C6: difficulty ramp -/

theorem updateDifficulty_le (s : ℚ) : updateDifficulty s ≤ maxSpeed :=
  min_le_right _ _

theorem updateDifficulty_ge (s : ℚ) (h : baseSpeed ≤ s) :
    baseSpeed ≤ updateDifficulty s := by
  refine le_min ?_ ?_
  · simp only [speedIncrease]
    linarith
  · norm_num [baseSpeed, maxSpeed]

theorem updateDifficulty_mono (s : ℚ) (h : s ≤ maxSpeed) :
    s ≤ updateDifficulty s := by
  refine le_min ?_ h
  simp only [speedIncrease]
  linarith

theorem updateDifficulty_strict (s : ℚ) (h : s < maxSpeed) :
    s < updateDifficulty s := by
  refine lt_min ?_ h
  simp only [speedIncrease]
  linarith

theorem updateDifficulty_fix (s : ℚ) (h : maxSpeed ≤ s) :
    updateDifficulty s = maxSpeed := by
  rw [updateDifficulty, min_eq_right]
  simp only [speedIncrease]
  linarith

theorem updateDifficulty_iterate (n : ℕ) :
    baseSpeed ≤ updateDifficulty^[n] baseSpeed ∧
      updateDifficulty^[n] baseSpeed ≤ maxSpeed := by
  induction n with
  | zero =>
    constructor
    · simp
    · simp only [Function.iterate_zero, id]
      norm_num [baseSpeed, maxSpeed]
  | succ m ih =>
    rw [Function.iterate_succ_apply']
    exact ⟨updateDifficulty_ge _ ih.1, updateDifficulty_le _⟩

/-- C6: while playing, each frame sets
`speed = min(speed + 0.0001, 0.5)`; the speed stays in
`[baseSpeed, maxSpeed]`, strictly increases below `maxSpeed`, never
decreases below `maxSpeed + 1`, never exceeds `maxSpeed`, and is fixed at
`maxSpeed` once reached. -/
theorem speed_ramp :
    (∀ (d : Bool) (lx : ℚ) (st : GameState), st.isPlaying = true →
      (gameLoopFrame d lx st).speed = min (st.speed + speedIncrease) maxSpeed) ∧
      (∀ s : ℚ, updateDifficulty s ≤ maxSpeed) ∧
      (∀ s : ℚ, baseSpeed ≤ s → baseSpeed ≤ updateDifficulty s) ∧
      (∀ s : ℚ, s ≤ maxSpeed → s ≤ updateDifficulty s) ∧
      (∀ s : ℚ, s < maxSpeed → s < updateDifficulty s) ∧
      (∀ s : ℚ, maxSpeed ≤ s → updateDifficulty s = maxSpeed) ∧
      (∀ n : ℕ, baseSpeed ≤ updateDifficulty^[n] baseSpeed ∧
        updateDifficulty^[n] baseSpeed ≤ maxSpeed) := by
  refine ⟨?_, updateDifficulty_le, updateDifficulty_ge, updateDifficulty_mono,
    updateDifficulty_strict, updateDifficulty_fix, updateDifficulty_iterate⟩
  intro d lx st hp
  simp [gameLoopFrame, hp, updateDifficulty]

/-- C6 witness: one step from the base speed strictly increases it. -/
theorem speed_ramp_witness : baseSpeed < updateDifficulty baseSpeed :=
  speed_ramp.2.2.2.2.1 baseSpeed (by norm_num [baseSpeed, maxSpeed])

/-! ## C7: the start reset -/

/-- C7: every start (from the start screen or the game-over screen runs the
same `startGame`) sets score 0, speed `baseSpeed`, lane 0, a grounded
non-jumping player at the origin, clears the obstacles, and leaves the
ground segments untouched. -/
theorem start_reset (st : GameState) :
    (startGame st).score = 0 ∧ (startGame st).speed = baseSpeed ∧
      (startGame st).playerLane = 0 ∧ (startGame st).playerY = 0 ∧
      (startGame st).playerX = 0 ∧ (startGame st).isJumping = false ∧
      (startGame st).obstacles = [] ∧ (startGame st).ground = st.ground ∧
      (startGame st).isPlaying = true ∧ (startGame st).isGameOver = false := by
  simp [startGame]

/-! ## C8: removal scoring with the perfect-run bonus -/

theorem cleanupStep_removes (st : ScoreState) (ob : Obstacle)
    (h : ob.z < rearThreshold) : cleanupStep st ob = (removalScore st, none) := by
  simp only [cleanupStep, if_pos h, removalScore]

/-- C8: each removal adds 10 points and 1 to the perfect-run counter, and
when the new counter value is a multiple of 10 an extra 50-point bonus makes
the removal worth 60 in total. -/
theorem removal_scoring :
    (∀ (st : ScoreState) (ob : Obstacle), ob.z < rearThreshold →
      cleanupStep st ob = (removalScore st, none) ∧
        (removalScore st).perfectRun = st.perfectRun + 1 ∧
        (¬(st.perfectRun + 1) % 10 = 0 →
          (removalScore st).score = st.score + 10) ∧
        ((st.perfectRun + 1) % 10 = 0 →
          (removalScore st).score = st.score + 60)) ∧
      (∀ (sc pr : ℤ) (ob : Obstacle), ob.z < rearThreshold →
        cleanupObstacles [ob] ⟨sc, pr⟩ = ([], removalScore ⟨sc, pr⟩)) := by
  constructor
  · intro st ob h
    refine ⟨cleanupStep_removes st ob h, rfl, ?_, ?_⟩
    · intro hmod
      simp [removalScore, hmod, pointsPerObstacle]
    · intro hmod
      simp only [removalScore, if_pos hmod, pointsPerObstacle, perfectRunBonus]
      ring
  · intro sc pr ob h
    rw [cleanupObstacles_eq_run]
    simp only [runSplice, cleanupStep_removes _ ob h]

/-- C8 witness: the tenth consecutive removal scores 60, an ordinary
removal scores 10. -/
theorem removal_scoring_witness :
    cleanupObstacles [⟨0, -21⟩] ⟨0, 9⟩ = ([], ⟨60, 10⟩) ∧
      cleanupObstacles [⟨2, -21⟩] ⟨0, 0⟩ = ([], ⟨10, 1⟩) := by
  have h1 := removal_scoring.2 0 9 ⟨0, -21⟩ (by norm_num [rearThreshold])
  have h2 := removal_scoring.2 0 0 ⟨2, -21⟩ (by norm_num [rearThreshold])
  rw [h1, h2]
  norm_num [removalScore, pointsPerObstacle, perfectRunBonus]

/-! ## C9: ground recycling preserves relative spacing -/

theorem groundStep_diff (s z1 z2 : ℚ) :
    ∃ k : ℤ, groundStep s z1 - groundStep s z2 = z1 - z2 + wrapSpan * k := by
  unfold groundStep wrapGround
  by_cases h1 : z1 - s < rearThreshold
  · by_cases h2 : z2 - s < rearThreshold
    · refine ⟨0, ?_⟩
      rw [if_pos h1, if_pos h2]
      push_cast
      ring
    · refine ⟨1, ?_⟩
      rw [if_pos h1, if_neg h2]
      push_cast
      ring
  · by_cases h2 : z2 - s < rearThreshold
    · refine ⟨-1, ?_⟩
      rw [if_neg h1, if_pos h2]
      push_cast
      ring
    · refine ⟨0, ?_⟩
      rw [if_neg h1, if_neg h2]
      push_cast
      ring

theorem groundStep_iterate_diff (s : ℚ) (n : ℕ) (z1 z2 : ℚ) :
    ∃ k : ℤ, (groundStep s)^[n] z1 - (groundStep s)^[n] z2 =
      z1 - z2 + wrapSpan * k := by
  induction n with
  | zero => exact ⟨0, by simp⟩
  | succ m ih =>
    obtain ⟨k, hk⟩ := ih
    obtain ⟨k', hk'⟩ := groundStep_diff s ((groundStep s)^[m] z1)
      ((groundStep s)^[m] z2)
    refine ⟨k + k', ?_⟩
    rw [Function.iterate_succ_apply', Function.iterate_succ_apply', hk', hk]
    push_cast
    ring

/-- C9: each frame a ground segment moves back by the speed and wraps by
exactly 200 once strictly below -20 (a post-scroll position of -20.5 wraps
to 179.5); hence over any number of frames the pairwise differences of
segment positions are preserved modulo the 200-unit span. -/
theorem ground_recycling :
    (∀ s z : ℚ, ¬(z - s < rearThreshold) → groundStep s z = z - s) ∧
      (∀ s z : ℚ, z - s < rearThreshold → groundStep s z = z - s + wrapSpan) ∧
      wrapGround (-41/2) = 359/2 ∧
      (∀ (s : ℚ) (n : ℕ) (z1 z2 : ℚ), ∃ k : ℤ,
        (groundStep s)^[n] z1 - (groundStep s)^[n] z2 =
          z1 - z2 + wrapSpan * k) := by
  refine ⟨?_, ?_, ?_, groundStep_iterate_diff⟩
  · intro s z h
    simp [groundStep, wrapGround, h]
  · intro s z h
    simp [groundStep, wrapGround, h]
  · rw [wrapGround, if_pos (by norm_num [rearThreshold])]
    norm_num [wrapSpan]

/-- C9 witness: a segment at -20 scrolled by one half wraps to 179.5. -/
theorem ground_recycling_witness : groundStep (1/2) (-20) = 359/2 := by
  have h := ground_recycling.2.1 (1/2) (-20) (by norm_num [rearThreshold])
  rw [h]
  norm_num [wrapSpan]

/-! ## C10: `splice` during iteration skips the next obstacle -/

theorem runSplice_cleanup_append (pre l : List Obstacle) (st : ScoreState)
    (h : ∀ ob ∈ pre, ¬(ob.z < rearThreshold)) :
    runSplice cleanupStep (pre ++ l) st =
      (pre ++ (runSplice cleanupStep l st).1,
        (runSplice cleanupStep l st).2) := by
  induction pre with
  | nil => simp
  | cons p pre' ih =>
    have hp : ¬(p.z < rearThreshold) := h p (by simp)
    have hstep : cleanupStep st p = (st, some p) := by
      simp [cleanupStep, hp]
    simp only [List.cons_append, runSplice, hstep]
    rw [ih (fun ob hob => h ob (by simp [hob]))]

/-- C10: when two consecutive obstacles are both past the rear threshold at
the start of a cleanup pass (everything before them still in range), the
pass removes and scores only the first — the `splice` shifts the second
into the already-visited index — and a later pass removes and scores the
second, so each is scored exactly once, the second one frame late. -/
theorem cleanup_splice_skip (pre : List Obstacle) (a b : Obstacle)
    (sc pr : ℤ) (hpre : ∀ ob ∈ pre, ¬(ob.z < rearThreshold))
    (ha : a.z < rearThreshold) (hb : b.z < rearThreshold) :
    cleanupObstacles (pre ++ [a, b]) ⟨sc, pr⟩ =
      (pre ++ [b], removalScore ⟨sc, pr⟩) ∧
      cleanupObstacles (pre ++ [b]) (removalScore ⟨sc, pr⟩) =
        (pre, removalScore (removalScore ⟨sc, pr⟩)) := by
  constructor
  · rw [cleanupObstacles_eq_run, runSplice_cleanup_append pre [a, b] _ hpre]
    simp only [runSplice, cleanupStep_removes _ a ha]
  · rw [cleanupObstacles_eq_run, runSplice_cleanup_append pre [b] _ hpre]
    simp only [runSplice, cleanupStep_removes _ b hb]
    simp

/-- C10 witness: a concrete pass over three obstacles where the last two
are both past the threshold. -/
theorem cleanup_splice_skip_witness :
    cleanupObstacles [⟨0, 0⟩, ⟨0, -21⟩, ⟨2, -22⟩] ⟨0, 0⟩ =
      ([⟨0, 0⟩, ⟨2, -22⟩], ⟨10, 1⟩) ∧
      cleanupObstacles [⟨0, 0⟩, ⟨2, -22⟩] ⟨10, 1⟩ = ([⟨0, 0⟩], ⟨20, 2⟩) := by
  have h := cleanup_splice_skip [⟨0, 0⟩] ⟨0, -21⟩ ⟨2, -22⟩ 0 0
    (by
      intro ob hob
      simp only [List.mem_singleton] at hob
      subst hob
      norm_num [rearThreshold])
    (by norm_num [rearThreshold]) (by norm_num [rearThreshold])
  have hrs : removalScore ⟨0, 0⟩ = (⟨10, 1⟩ : ScoreState) := by
    norm_num [removalScore, pointsPerObstacle, perfectRunBonus]
  have hrs2 : removalScore ⟨10, 1⟩ = (⟨20, 2⟩ : ScoreState) := by
    norm_num [removalScore, pointsPerObstacle, perfectRunBonus]
  constructor
  · have h1 := h.1
    rw [hrs] at h1
    simpa using h1
  · have h2 := h.2
    rw [hrs, hrs2] at h2
    simpa using h2

/-! ## C3: where the collision check sits in the frame -/

theorem runSplice_mono_gameOver (s px py pz : ℚ) :
    ∀ (l : List Obstacle) (ps : PassState),
      (∀ ob ∈ l, ¬(ob.z - s < rearThreshold)) →
      ((runSplice (monoObstacleStep s px py pz) l ps).2.isGameOver = true ↔
        (ps.isGameOver = true ∨
          ∃ ob ∈ l, collides px pz py ob.x (ob.z - s) = true)) := by
  intro l
  induction l with
  | nil =>
    intro ps _
    simp [runSplice]
  | cons ob rest ih =>
    intro ps h
    have hno : ¬(ob.z - s < rearThreshold) := h ob (by simp)
    by_cases hc : collides px pz py ob.x (ob.z - s) = true
    · have hstep : monoObstacleStep s px py pz ps ob =
          ({ ps with isPlaying := false, isGameOver := true },
            some { ob with z := ob.z - s }) := by
        simp [monoObstacleStep, hc]
      simp only [runSplice, hstep]
      rw [ih _ (fun o ho => h o (by simp [ho]))]
      simp [hc]
    · have hcf : collides px pz py ob.x (ob.z - s) = false := by
        simpa using hc
      have hstep : monoObstacleStep s px py pz ps ob =
          (ps, some { ob with z := ob.z - s }) := by
        simp [monoObstacleStep, hcf, hno]
      simp only [runSplice, hstep]
      rw [ih _ (fun o ho => h o (by simp [ho]))]
      simp [hcf]

/-- C3 (amended): in the monolithic loop, on a frame with no removals the
run ends exactly when some obstacle at its post-scroll position collides
with the player's pre-movement position — player movement lags one frame
behind obstacle movement.  In the modular loop, `updatePlayerMovement` runs
before `checkCollisions`, so the collision decision uses the post-scroll
obstacles and the post-movement player position. -/
theorem collision_check_ordering :
    (∀ (d : Bool) (lx : ℚ) (st : GameState), st.isPlaying = true →
      st.isGameOver = false →
      (∀ ob ∈ st.obstacles, ¬(ob.z - st.speed < rearThreshold)) →
      ((gameLoopFrame d lx st).isGameOver = true ↔
        ∃ ob ∈ st.obstacles,
          collides st.playerX st.playerZ st.playerY ob.x
            (ob.z - st.speed) = true)) ∧
      (∀ mst : ModState, mst.isPlaying = true →
        ((modGameLoopFrame mst).isGameOver = true ↔
          (mst.isGameOver = true ∨
            checkCollisions
              (updatePlayerMovement mst.playerLane mst.playerX mst.playerY
                mst.isJumping).1
              mst.playerZ
              (updatePlayerMovement mst.playerLane mst.playerX mst.playerY
                mst.isJumping).2
              (moveWorld mst.speed mst.ground mst.obstacles).2 = true))) := by
  constructor
  · intro d lx st hp hg hnr
    have hframe : (gameLoopFrame d lx st).isGameOver =
        (monoObstaclePass st.speed st.playerX st.playerY st.playerZ
          st.obstacles
          ⟨st.score, st.isPlaying, st.isGameOver⟩).2.isGameOver := by
      simp [gameLoopFrame, hp]
    rw [hframe, monoObstaclePass_eq_run,
      runSplice_mono_gameOver st.speed st.playerX st.playerY st.playerZ
        st.obstacles _ hnr]
    simp [hg]
  · intro mst hp
    by_cases hc : checkCollisions
        (updatePlayerMovement mst.playerLane mst.playerX mst.playerY
          mst.isJumping).1
        mst.playerZ
        (updatePlayerMovement mst.playerLane mst.playerX mst.playerY
          mst.isJumping).2
        (moveWorld mst.speed mst.ground mst.obstacles).2 = true
    · simp [modGameLoopFrame, hp, hc]
    · have hcf := (Bool.not_eq_true _).mp hc
      simp [modGameLoopFrame, hp, hcf]

/-- C3 counterexample: a playing modular state where, at the post-scroll
obstacle positions and the pre-movement player position, the collision
predicate holds — yet the frame does not end the run, because the player's
jump movement is applied before the check. -/
theorem collision_check_ordering_cex :
    stC3.isPlaying = true ∧
      checkCollisions stC3.playerX stC3.playerZ stC3.playerY
        (moveWorld stC3.speed stC3.ground stC3.obstacles).2 = true ∧
      (modGameLoopFrame stC3).isGameOver = false := by
  have hmove : (moveWorld baseSpeed [] [(⟨0, 3/10⟩ : Obstacle)]).2 =
      [⟨0, 1/10⟩] := by
    simp only [moveWorld, List.map_cons, List.map_nil]
    norm_num [baseSpeed]
  have hpm : updatePlayerMovement 0 0 (9/5) true = (0, 21/10) := by
    simp only [updatePlayerMovement, if_pos]
    rw [Prod.mk.injEq]
    constructor
    · norm_num [laneSpacing, laneChangeSpeed]
    · rw [max_eq_right (by norm_num [jumpSpeed])]
      norm_num [jumpSpeed]
  have hcf : checkCollisions (updatePlayerMovement 0 0 (9/5) true).1 0
      (updatePlayerMovement 0 0 (9/5) true).2
      (moveWorld baseSpeed [] [(⟨0, 3/10⟩ : Obstacle)]).2 = false := by
    rw [hpm, hmove]
    norm_num [checkCollisions, collides, abs_lt, collisionDistance,
      jumpSafeHeight]
  refine ⟨rfl, ?_, ?_⟩
  · simp only [stC3]
    rw [hmove]
    norm_num [checkCollisions, collides, abs_lt, collisionDistance,
      jumpSafeHeight]
  · simp [modGameLoopFrame, stC3, hcf]

/-- C3 witness: the monolithic conjunct applied to the C2 state restricted
to its first obstacle (no removal this frame), where a collision is
declared at the pre-movement player position. -/
theorem collision_check_ordering_witness :
    (gameLoopFrame false 0
      { stC2 with obstacles := [⟨0, 1/10⟩] }).isGameOver = true := by
  rw [(collision_check_ordering.1 false 0
    { stC2 with obstacles := [⟨0, 1/10⟩] } rfl rfl
    (by
      intro ob hob
      simp only [stC2, List.mem_singleton] at hob
      subst hob
      norm_num [stC2, baseSpeed, rearThreshold]))]
  refine ⟨⟨0, 1/10⟩, by simp [stC2], ?_⟩
  norm_num [stC2, collides, abs_lt, collisionDistance, jumpSafeHeight,
    baseSpeed]

/-! ## C2: what the monolithic frame still mutates after a collision -/

/-- C2 (behaviour at the failing input): in the monolithic loop the
collision branch's `return` exits only the `forEach` callback, so in the
very frame that detects the collision and flags game over, a later obstacle
is still removed and scored, the speed still ramps, and the player is still
moved.  Evaluated at `stC2`: the first obstacle collides, yet the second is
cleaned up (+10 points), the speed and the player's x change, and only the
colliding obstacle survives in the active set. -/
theorem gameOver_frame_mutates :
    (gameLoopFrame false 0 stC2).isGameOver = true ∧
      (gameLoopFrame false 0 stC2).isPlaying = false ∧
      (gameLoopFrame false 0 stC2).score = stC2.score + pointsPerObstacle ∧
      (gameLoopFrame false 0 stC2).speed ≠ stC2.speed ∧
      (gameLoopFrame false 0 stC2).playerX ≠ stC2.playerX ∧
      (gameLoopFrame false 0 stC2).obstacles = [⟨0, -1/10⟩] := by
  have h1 : monoObstacleStep baseSpeed 1 0 0 ⟨0, true, false⟩ ⟨0, 1/10⟩ =
      (⟨0, false, true⟩, some ⟨0, -1/10⟩) := by
    have hc : collides 1 0 0 0 (1/10 - baseSpeed) = true := by
      norm_num [collides, abs_lt, collisionDistance, jumpSafeHeight,
        baseSpeed]
    simp only [monoObstacleStep, hc, if_true]
    rw [Prod.mk.injEq, Option.some.injEq, Obstacle.mk.injEq]
    norm_num [baseSpeed]
  have h2 : monoObstacleStep baseSpeed 1 0 0 ⟨0, false, true⟩
      ⟨0, -199/10⟩ = (⟨10, false, true⟩, none) := by
    have hc : collides 1 0 0 0 (-199/10 - baseSpeed) = false := by
      norm_num [collides, abs_lt, collisionDistance, jumpSafeHeight,
        baseSpeed]
    have hr : (-199/10 : ℚ) - baseSpeed < rearThreshold := by
      norm_num [baseSpeed, rearThreshold]
    simp only [monoObstacleStep, hc, Bool.false_eq_true, if_false,
      if_pos hr]
    norm_num [pointsPerObstacle]
  have hpass : monoObstaclePass baseSpeed 1 0 0
      [⟨0, 1/10⟩, ⟨0, -199/10⟩] ⟨0, true, false⟩ =
      ([⟨0, -1/10⟩], ⟨10, false, true⟩) := by
    rw [monoObstaclePass_eq_run]
    simp only [runSplice, h1, h2]
  refine ⟨?_, ?_, ?_, ?_, ?_, ?_⟩
  · simp only [gameLoopFrame, stC2, Bool.not_true, Bool.false_eq_true,
      if_false]
    rw [hpass]
  · simp only [gameLoopFrame, stC2, Bool.not_true, Bool.false_eq_true,
      if_false]
    rw [hpass]
  · simp only [gameLoopFrame, stC2, Bool.not_true, Bool.false_eq_true,
      if_false]
    rw [hpass]
    norm_num [pointsPerObstacle]
  · simp only [gameLoopFrame, stC2, Bool.not_true, Bool.false_eq_true,
      if_false]
    rw [updateDifficulty,
      min_eq_left (by norm_num [baseSpeed, speedIncrease, maxSpeed])]
    norm_num [baseSpeed, speedIncrease]
  · simp only [gameLoopFrame, stC2, Bool.not_true, Bool.false_eq_true,
      if_false]
    norm_num [laneSpacing, laneChangeSpeed]
  · simp only [gameLoopFrame, stC2, Bool.not_true, Bool.false_eq_true,
      if_false]
    rw [hpass]

/-! ## C5: removal frame count at constant speed -/

theorem obstacleFrame_alive (P s : ℚ) (sc : ℤ) (hs : 0 < s) :
    ∀ k : ℕ, (k : ℚ) * s ≤ P - rearThreshold →
      (obstacleFrame s)^[k] (some P, sc) = (some (P - k * s), sc) := by
  intro k
  induction k with
  | zero => intro _; simp
  | succ n ih =>
    intro h
    have hsum : ((n : ℚ) + 1) * s ≤ P - rearThreshold := by
      have hh : ((n + 1 : ℕ) : ℚ) * s ≤ P - rearThreshold := h
      push_cast at hh
      linarith
    have hn : (n : ℚ) * s ≤ P - rearThreshold := by nlinarith
    rw [Function.iterate_succ_apply', ih hn]
    have hz : ¬(P - (n : ℚ) * s - s < rearThreshold) := by nlinarith
    simp only [obstacleFrame]
    rw [if_neg hz]
    simp only [Prod.mk.injEq, Option.some.injEq, and_true]
    push_cast
    ring

/-- C5 (amended): an obstacle spawned at P, at constant speed s, stays
active with unchanged score through frame `⌊(P - rearThreshold)/s⌋₊` and is
removed — scoring exactly `pointsPerObstacle`, once — on frame
`⌊(P - rearThreshold)/s⌋₊ + 1`, the least frame count `k` with
`k·s > P - rearThreshold`; afterwards nothing changes. -/
theorem obstacle_removal_count (P s : ℚ) (sc : ℤ) (hs : 0 < s)
    (hP : rearThreshold ≤ P) :
    (∀ k ≤ ⌊(P - rearThreshold) / s⌋₊,
      (obstacleFrame s)^[k] (some P, sc) = (some (P - k * s), sc)) ∧
      (obstacleFrame s)^[⌊(P - rearThreshold) / s⌋₊ + 1] (some P, sc) =
        (none, sc + pointsPerObstacle) ∧
      (∀ m : ℕ, (obstacleFrame s)^[⌊(P - rearThreshold) / s⌋₊ + 1 + m]
        (some P, sc) = (none, sc + pointsPerObstacle)) := by
  have hx : (0 : ℚ) ≤ (P - rearThreshold) / s :=
    div_nonneg (by linarith) (le_of_lt hs)
  have halive : ∀ k ≤ ⌊(P - rearThreshold) / s⌋₊,
      (obstacleFrame s)^[k] (some P, sc) = (some (P - k * s), sc) := by
    intro k hk
    apply obstacleFrame_alive P s sc hs
    have h1 : (k : ℚ) ≤ (P - rearThreshold) / s :=
      le_trans (by exact_mod_cast Nat.cast_le.mpr hk) (Nat.floor_le hx)
    have h2 : (k : ℚ) * s ≤ ((P - rearThreshold) / s) * s := by nlinarith
    rwa [div_mul_cancel₀ _ (ne_of_gt hs)] at h2
  have hremoved : (obstacleFrame s)^[⌊(P - rearThreshold) / s⌋₊ + 1]
      (some P, sc) = (none, sc + pointsPerObstacle) := by
    rw [Function.iterate_succ_apply', halive _ le_rfl]
    have h2 : (P - rearThreshold) / s <
        (⌊(P - rearThreshold) / s⌋₊ : ℚ) + 1 := Nat.lt_floor_add_one _
    have h3 : P - rearThreshold <
        ((⌊(P - rearThreshold) / s⌋₊ : ℚ) + 1) * s := by
      have h4 := mul_lt_mul_of_pos_right h2 hs
      rwa [div_mul_cancel₀ _ (ne_of_gt hs)] at h4
    have hlt : P - (⌊(P - rearThreshold) / s⌋₊ : ℚ) * s - s <
        rearThreshold := by nlinarith
    simp only [obstacleFrame]
    rw [if_pos hlt]
  refine ⟨halive, hremoved, ?_⟩
  intro m
  induction m with
  | zero => simpa using hremoved
  | succ j ihj =>
    rw [show ⌊(P - rearThreshold) / s⌋₊ + 1 + (j + 1) =
        (⌊(P - rearThreshold) / s⌋₊ + 1 + j) + 1 from rfl,
      Function.iterate_succ_apply', ihj]
    simp [obstacleFrame]

/-- C5 witness: at the reference spawn position 100 and base speed 0.2 the
obstacle is removed, with 10 points scored, on frame 601. -/
theorem obstacle_removal_count_witness :
    (obstacleFrame baseSpeed)^[601] (some spawnZ, 0) = (none, 10) := by
  have hfloor : ⌊(spawnZ - rearThreshold) / baseSpeed⌋₊ = 600 := by
    rw [Nat.floor_eq_iff (by norm_num [spawnZ, rearThreshold, baseSpeed])]
    norm_num [spawnZ, rearThreshold, baseSpeed]
  have h := (obstacle_removal_count spawnZ baseSpeed 0
    (by norm_num [baseSpeed])
    (by norm_num [spawnZ, rearThreshold])).2.1
  rw [hfloor, show (600 : ℕ) + 1 = 601 from rfl] at h
  rw [h]
  norm_num [pointsPerObstacle]

/-- C5 counterexample: at the reference values the claimed frame count
`⌈(P - rearThreshold)/s⌉` is 600, but after 600 frames the obstacle sits
exactly on the rear threshold — still active, score untouched —
contradicting removal "after exactly ⌈(P - rearThreshold)/s⌉ frames". -/
theorem obstacle_removal_count_cex :
    ⌈(spawnZ - rearThreshold) / baseSpeed⌉ = 600 ∧
      (obstacleFrame baseSpeed)^[600] (some spawnZ, 0) =
        (some rearThreshold, 0) := by
  constructor
  · rw [Int.ceil_eq_iff]
    norm_num [spawnZ, rearThreshold, baseSpeed]
  · have h := obstacleFrame_alive spawnZ baseSpeed 0
      (by norm_num [baseSpeed]) 600
      (by norm_num [spawnZ, rearThreshold, baseSpeed])
    rw [h]
    norm_num [spawnZ, rearThreshold, baseSpeed]

end Runner
